import Mathlib

/-!
# Librevault: SQLite wrapper and share-secret (`Key`) hierarchy

A shallow embedding of

* `src/daemon/util/SQLiteWrapper.cpp` (`SQLValue`, `SQLiteResultIterator`,
  `SQLiteResult`, `SQLiteSavepoint`), and
* `src/syncfs/Key.h` (`Key`, its inline accessors, its error classes),

followed by the properties established about them.

Conventions of the embedding:

* `std::string` is a Lean `String`; `std::vector<uint8_t>` is a `List Byte`.
* A C++ object is a structure; a member function takes the object first.
  Member functions that return a value and could touch the object return the
  pair of the value and the object afterwards.
* A thrown exception is the `error` side of `Except`.
* Pointers (`sqlite3_stmt*`) are natural-number handles, `0` being the null
  pointer.
-/

namespace librevault

/-- One octet, the element type of `std::vector<uint8_t>`. -/
abbrev Byte := Fin 256

/-! ## SQLite result codes (`sqlite3.h`) -/

/-- Result code `SQLITE_OK` of `sqlite3.h`. -/
def SQLITE_OK : Int := 0
/-- Result code `SQLITE_ROW` of `sqlite3.h`: `sqlite3_step` has a row ready. -/
def SQLITE_ROW : Int := 100
/-- Result code `SQLITE_DONE` of `sqlite3.h`: `sqlite3_step` has finished. -/
def SQLITE_DONE : Int := 101
/-- Result code `SQLITE_ERROR` of `sqlite3.h`, one of the error codes. -/
def SQLITE_ERROR : Int := 1
/-- Result code `SQLITE_BUSY` of `sqlite3.h`, one of the error codes. -/
def SQLITE_BUSY : Int := 5

/-! ## `SQLValue` -/

namespace SQLValue

/-- The enumeration `SQLValue::ValueType`: the five fundamental datatypes that
`sqlite3_column_type` can report, under the names `fill_result` and
`SQLiteDB::exec` switch over. -/
inductive ValueType where
  | INT
  | DOUBLE
  | TEXT
  | BLOB
  | NULL_VALUE
  deriving DecidableEq, Repr

end SQLValue

/-- The payload a `SQLValue` stores next to its tag (the `QVariant value`
member). A `double` is kept as its 64-bit pattern; only its tag is reasoned
about. -/
inductive SQLPayload where
  | none
  | longlong (v : Int)
  | real (bits : Nat)
  | text (s : String)
  | bytes (b : List Byte)
  deriving DecidableEq, Repr

/-- The class `SQLValue`: a tag `value_type` and the stored `value`. -/
structure SQLValue where
  value_type : SQLValue.ValueType
  value : SQLPayload
  deriving DecidableEq, Repr

namespace SQLValue

/-- Constructor `SQLValue::SQLValue()`. -/
def null : SQLValue := ⟨ValueType.NULL_VALUE, SQLPayload.none⟩
/-- Constructor `SQLValue::SQLValue(int64_t)`. -/
def ofInt64 (int_val : Int) : SQLValue := ⟨ValueType.INT, SQLPayload.longlong int_val⟩
/-- Constructor `SQLValue::SQLValue(double)`. -/
def ofDouble (double_val : Nat) : SQLValue := ⟨ValueType.DOUBLE, SQLPayload.real double_val⟩
/-- Constructor `SQLValue::SQLValue(const std::string&)`. -/
def ofString (text_val : String) : SQLValue := ⟨ValueType.TEXT, SQLPayload.text text_val⟩
/-- Constructor `SQLValue::SQLValue(const uint8_t*, uint64_t)`: the
`blob_size` octets found at `blob_ptr`. -/
def ofBlob (blob : List Byte) : SQLValue := ⟨ValueType.BLOB, SQLPayload.bytes blob⟩

end SQLValue

/-! ## The prepared statement as seen through the `sqlite3_column_*` calls -/

/-- What SQLite holds for one column of the current row of a prepared
statement. SQLite stores every value in exactly one of its five storage
classes, which is what `sqlite3_column_type` reports. -/
inductive Column where
  | integer (v : Int)
  | float (bits : Nat)
  | text (s : String)
  | blob (b : List Byte)
  | null
  deriving DecidableEq, Repr

/-- The current row of the statement behind a `sqlite3_stmt*`, column by
column. -/
abbrev sqlite3_stmt := Nat → Column

/-- Library call `sqlite3_column_type`, already cast to `SQLValue::ValueType`. -/
def sqlite3_column_type (stmt : sqlite3_stmt) (iCol : Nat) : SQLValue.ValueType :=
  match stmt iCol with
  | Column.integer _ => SQLValue.ValueType.INT
  | Column.float _ => SQLValue.ValueType.DOUBLE
  | Column.text _ => SQLValue.ValueType.TEXT
  | Column.blob _ => SQLValue.ValueType.BLOB
  | Column.null => SQLValue.ValueType.NULL_VALUE

/-- Library call `sqlite3_column_int64`; SQLite converts other storage classes,
which `fill_result` never asks for. -/
def sqlite3_column_int64 (stmt : sqlite3_stmt) (iCol : Nat) : Int :=
  match stmt iCol with
  | Column.integer v => v
  | _ => 0

/-- Library call `sqlite3_column_double`, as a bit pattern. -/
def sqlite3_column_double (stmt : sqlite3_stmt) (iCol : Nat) : Nat :=
  match stmt iCol with
  | Column.float bits => bits
  | _ => 0

/-- Library call `sqlite3_column_text`, read as the C string
`std::string((const char*) ...)` builds from it: the characters before the
first NUL. -/
def sqlite3_column_text (stmt : sqlite3_stmt) (iCol : Nat) : String :=
  match stmt iCol with
  | Column.text s => String.mk (s.data.takeWhile (fun c => c != Char.ofNat 0))
  | _ => ""

/-- Library calls `sqlite3_column_blob` and `sqlite3_column_bytes` together:
the octets of the blob. -/
def sqlite3_column_blob (stmt : sqlite3_stmt) (iCol : Nat) : List Byte :=
  match stmt iCol with
  | Column.blob b => b
  | _ => []

/-! ## `SQLiteResultIterator` -/

/-- The class `SQLiteResultIterator`. `shared_idx` is the value of the counter
the shared pointer refers to, `cols` the column names, `result` the `mutable`
row. -/
structure SQLiteResultIterator where
  prepared_stmt : Nat
  shared_idx : Int
  cols : List String
  current_idx : Int
  rescode : Int
  result : List SQLValue
  deriving DecidableEq, Repr

namespace SQLiteResultIterator

/-- Width of the loop counter `unsigned iCol` of `fill_result`. -/
def UINT_WIDTH : Nat := 2 ^ 32

/-- The value one iteration of the loop of `fill_result` appends: the `switch`
over `sqlite3_column_type(prepared_stmt, iCol)`. -/
def fill_column (stmt : sqlite3_stmt) (iCol : Nat) : SQLValue :=
  match sqlite3_column_type stmt iCol with
  | SQLValue.ValueType.INT => SQLValue.ofInt64 (sqlite3_column_int64 stmt iCol)
  | SQLValue.ValueType.DOUBLE => SQLValue.ofDouble (sqlite3_column_double stmt iCol)
  | SQLValue.ValueType.TEXT => SQLValue.ofString (sqlite3_column_text stmt iCol)
  | SQLValue.ValueType.BLOB => SQLValue.ofBlob (sqlite3_column_blob stmt iCol)
  | SQLValue.ValueType.NULL_VALUE => SQLValue.null

/-- The loop `for (unsigned iCol = 0; iCol < cols->size(); iCol++)` of
`fill_result`, started at `iCol` with the row built so far. The counter is a
32-bit `unsigned`, so `iCol++` wraps; `fuel` bounds the number of iterations
and `none` means the bound was reached before the loop condition failed. -/
def fill_loop (stmt : sqlite3_stmt) (size : Nat) :
    Nat → Nat → List SQLValue → Option (List SQLValue)
  | 0, _, _ => none
  | fuel + 1, iCol, result =>
    if iCol < size then
      fill_loop stmt size fuel ((iCol + 1) % UINT_WIDTH) (result ++ [fill_column stmt iCol])
    else
      some result

/-- Member `SQLiteResultIterator::fill_result`, on the statement `stmt` that
`prepared_stmt` points to. Returns the iterator afterwards (only the `mutable`
member `result` can differ). -/
def fill_result (fuel : Nat) (stmt : sqlite3_stmt) (self : SQLiteResultIterator) :
    Option SQLiteResultIterator :=
  if self.rescode ≠ SQLITE_ROW then some self
  else
    -- result.resize(0); result.reserve(cols->size());
    (fill_loop stmt self.cols.length fuel 0 []).map (fun r => { self with result := r })

/-- Constructor `SQLiteResultIterator::SQLiteResultIterator(int rescode)`. Its
initialiser list names `rescode` only: the containers and shared pointers are
default-constructed (empty, null), and the raw pointer `prepared_stmt` and the
integer `current_idx` hold whatever their declaration leaves in them, passed
here as arguments. -/
def ofRescode (rescode : Int) (prepared_stmt : Nat) (current_idx : Int) :
    SQLiteResultIterator :=
  { prepared_stmt := prepared_stmt, shared_idx := 0, cols := [],
    current_idx := current_idx, rescode := rescode, result := [] }

/-- Constructor `SQLiteResultIterator::SQLiteResultIterator(sqlite3_stmt*,
shared_ptr<int64_t>, shared_ptr<vector<string>>, int)`; `stmt` is the
statement `prepared_stmt` points to. -/
def ofStmt (fuel : Nat) (stmt : sqlite3_stmt) (prepared_stmt : Nat) (shared_idx : Int)
    (cols : List String) (rescode : Int) : Option SQLiteResultIterator :=
  fill_result fuel stmt
    { prepared_stmt := prepared_stmt, shared_idx := shared_idx, cols := cols,
      current_idx := shared_idx, rescode := rescode, result := [] }

/-- Member `SQLiteResultIterator::operator++()`. The call `sqlite3_step`
returns `step_code` and leaves the statement showing `stmt`. -/
def next (fuel : Nat) (step_code : Int) (stmt : sqlite3_stmt) (self : SQLiteResultIterator) :
    Option SQLiteResultIterator :=
  fill_result fuel stmt
    { self with rescode := step_code, shared_idx := self.shared_idx + 1,
                current_idx := self.shared_idx + 1 }

/-- Member `SQLiteResultIterator::operator==`. -/
def eq (self lvalue : SQLiteResultIterator) : Bool :=
  self.prepared_stmt == lvalue.prepared_stmt && self.current_idx == lvalue.current_idx

/-- Member `SQLiteResultIterator::operator!=`. -/
def ne (self lvalue : SQLiteResultIterator) : Bool :=
  if (lvalue.rescode == SQLITE_DONE || lvalue.rescode == SQLITE_OK) &&
      (self.rescode == SQLITE_DONE || self.rescode == SQLITE_OK) then
    false
  else if self.prepared_stmt == lvalue.prepared_stmt &&
      self.current_idx == lvalue.current_idx then
    false
  else
    true

/-- Member `SQLiteResultIterator::operator[]`; `none` where `result[pos]` is
out of range. -/
def get (self : SQLiteResultIterator) (pos : Nat) : Option SQLValue :=
  self.result.get? pos

end SQLiteResultIterator

/-! ## `SQLiteResult` -/

/-- The class `SQLiteResult`. -/
structure SQLiteResult where
  prepared_stmt : Nat
  shared_idx : Int
  cols : List String
  rescode : Int
  deriving DecidableEq, Repr

namespace SQLiteResult

/-- Member `SQLiteResult::begin`. -/
def begin_ (fuel : Nat) (stmt : sqlite3_stmt) (self : SQLiteResult) : Option SQLiteResultIterator :=
  SQLiteResultIterator.ofStmt fuel stmt self.prepared_stmt self.shared_idx self.cols self.rescode

/-- Member `SQLiteResult::end`: `SQLiteResultIterator(SQLITE_DONE)`, with the
two values that constructor does not set. -/
def end_ (_self : SQLiteResult) (prepared_stmt : Nat) (current_idx : Int) : SQLiteResultIterator :=
  SQLiteResultIterator.ofRescode SQLITE_DONE prepared_stmt current_idx

end SQLiteResult

/-! ## `SQLiteDB` and `SQLiteSavepoint` -/

/-- The class `SQLiteDB`, observed through the `sql` argument of every call of
`exec`, oldest first. -/
structure SQLiteDB where
  sent : List String
  deriving DecidableEq, Repr

/-- Member `SQLiteDB::exec(sql)` with no bound values: the text is prepared and
stepped once; the `SQLiteResult` it returns is a temporary in every caller
below and is dropped. -/
def SQLiteDB.exec (db : SQLiteDB) (sql : String) : SQLiteDB :=
  { db with sent := db.sent ++ [sql] }

/-- The class `SQLiteSavepoint` (its `db` member is a reference, so the
database is threaded through the member functions instead). -/
structure SQLiteSavepoint where
  name : String
  deriving DecidableEq, Repr

namespace SQLiteSavepoint

/-- Constructor `SQLiteSavepoint::SQLiteSavepoint(db, savepoint_name)`. -/
def create (db : SQLiteDB) (savepoint_name : String) : SQLiteSavepoint × SQLiteDB :=
  (⟨savepoint_name⟩, db.exec ("SAVEPOINT " ++ savepoint_name))

/-- Member `SQLiteSavepoint::commit`. -/
def commit (self : SQLiteSavepoint) (db : SQLiteDB) : SQLiteDB :=
  db.exec ("RELEASE " ++ self.name)

/-- Destructor `SQLiteSavepoint::~SQLiteSavepoint`. -/
def destroy (self : SQLiteSavepoint) (db : SQLiteDB) : SQLiteDB :=
  db.exec ("ROLLBACK TO " ++ self.name)

/-- The whole life of one savepoint object: construction, then `commits` calls
of `commit()`, then destruction. -/
def lifetime (db : SQLiteDB) (savepoint_name : String) (commits : Nat) : SQLiteDB :=
  let (sp, db1) := create db savepoint_name
  sp.destroy (Nat.iterate sp.commit commits db1)

end SQLiteSavepoint

/-! ## `Key` (`src/syncfs/Key.h`) -/

namespace syncfs

/-- The enumeration `Key::Type`, declared `enum Type : char`: a value of it is
a `char`, and the four enumerators are the characters `A` to `D`. -/
structure KeyType where
  code : Char
  deriving DecidableEq, Repr

namespace KeyType

/-- Enumerator `Owner = 'A'`. -/
def Owner : KeyType := ⟨'A'⟩
/-- Enumerator `ReadWrite = 'B'`. -/
def ReadWrite : KeyType := ⟨'B'⟩
/-- Enumerator `ReadOnly = 'C'`. -/
def ReadOnly : KeyType := ⟨'C'⟩
/-- Enumerator `Download = 'D'`. -/
def Download : KeyType := ⟨'D'⟩

end KeyType

/-- The exception classes `Key::secret_error` and its three subclasses
`format_error`, `level_error`, `crypto_error`. -/
inductive secret_error where
  | format_error
  | level_error
  | crypto_error
  deriving DecidableEq, Repr

/-- The message each exception class passes to `std::domain_error`. -/
def secret_error.what : secret_error → String
  | secret_error.format_error => "Secret format mismatch"
  | secret_error.level_error => "Key has insufficient privileges for this action"
  | secret_error.crypto_error => "Cryptographic error. Probably ECDSA domain mismatch"

/-- The class `Key`: the encoded text `secret_s` and the `payload`. The three
CryptoPP members (`private_key`, `public_key`, `encryption_key`) are not read
by any member defined in the header and are left out. -/
structure Key where
  secret_s : String
  payload : List Byte
  deriving DecidableEq, Repr

namespace Key

/-- Constant `Key::private_key_size`. -/
def private_key_size : Nat := 32
/-- Constant `Key::public_key_size`. -/
def public_key_size : Nat := 33
/-- Constant `Key::encryption_key_size`. -/
def encryption_key_size : Nat := 32

/-- Member `Key::get_payload`. -/
def get_payload (self : Key) : List Byte × Key := (self.payload, self)

/-- Conversion `Key::operator std::string`. -/
def toStdString (self : Key) : String × Key := (self.secret_s, self)

/-- Member `Key::getType`: `secret_s.front()` as a `Type`; `none` stands for
the undefined `front()` of an empty string. -/
def getType (self : Key) : Option KeyType × Key :=
  (self.secret_s.data.head?.map KeyType.mk, self)

/-- Member `Key::getCheckChar`: `secret_s.back()`; `none` stands for the
undefined `back()` of an empty string. -/
def getCheckChar (self : Key) : Option Char × Key :=
  (self.secret_s.data.getLast?, self)

end Key

/-! ### The part of `Key` whose code is in `Key.cpp` -/

/-- Modelled from the spec: the external collaborators of the secret (the
elliptic-curve library, the two one-way hashes, the text encoding of the
payload and the check character), whose code is not part of `Key.h`.
`public_point` is `none` where the library rejects the scalar. -/
structure Primitives where
  valid_private_key : List Byte → Bool
  public_point : List Byte → Option (List Byte)
  readonly_hash : List Byte → List Byte
  download_hash : List Byte → List Byte
  base_encode : List Byte → List Char
  base_decode : List Char → Option (List Byte)
  check_char : List Char → Char

/-- Modelled from the spec: what §3 and §4.1 require of the collaborators. The
text encoding decodes what it encoded; a valid private scalar has a public
point; the compressed point and the two symmetric keys have their fixed
sizes. -/
structure Primitives.Lawful (P : Primitives) : Prop where
  decode_encode : ∀ payload, P.base_decode (P.base_encode payload) = some payload
  point_of_valid : ∀ scalar, P.valid_private_key scalar = true →
    ∃ point, P.public_point scalar = some point
  point_size : ∀ scalar point, P.public_point scalar = some point →
    point.length = Key.public_key_size
  readonly_hash_size : ∀ point, (P.readonly_hash point).length = Key.encryption_key_size
  download_hash_size : ∀ point, (P.download_hash point).length = Key.encryption_key_size

namespace KeyType

/-- Modelled from the spec: the strength ordering of §3, missing from `Key.h`:
`Owner`/`ReadWrite` > `ReadOnly` > `Download`, and no rank for a character that
tags no level. -/
def strength (t : KeyType) : Option Nat :=
  if t = Owner ∨ t = ReadWrite then some 2
  else if t = ReadOnly then some 1
  else if t = Download then some 0
  else none

/-- Modelled from the spec: the signing-capable levels of §3 (`Owner` and
`ReadWrite`), a notion `Key.h` has no name for. -/
def is_signing (t : KeyType) : Bool := t = Owner ∨ t = ReadWrite

/-- Modelled from the spec: the fixed payload size of each level (§3), missing
from `Key.h`: the private scalar for a signing level, the public point followed
by the symmetric key for `ReadOnly`, the symmetric key alone for `Download`. -/
def payload_size (t : KeyType) : Option Nat :=
  if t = Owner ∨ t = ReadWrite then some Key.private_key_size
  else if t = ReadOnly then some (Key.public_key_size + Key.encryption_key_size)
  else if t = Download then some Key.encryption_key_size
  else none

end KeyType

/-- Modelled from the spec: the two levels a secret can be generated at (§4.1,
"desired top-level privilege"), a type `Key.h` does not declare. -/
inductive TopLevel where
  | Owner
  | ReadWrite
  deriving DecidableEq, Repr

/-- The `Key::Type` of a top level. -/
def TopLevel.toKeyType : TopLevel → KeyType
  | TopLevel.Owner => KeyType.Owner
  | TopLevel.ReadWrite => KeyType.ReadWrite

namespace Key

/-- The level a secret holds, as every member below reads it: `getType()`. -/
def level (self : Key) : Option KeyType := (getType self).1

/-- Modelled from the spec: `encode()` of §4.1, whose code (in `Key.cpp`) is
missing: the type character, the encoded payload, then the check character
computed over everything before it. -/
def encode (P : Primitives) (type : KeyType) (payload : List Byte) : String :=
  let body := type.code :: P.base_encode payload
  String.mk (body ++ [P.check_char body])

/-- Modelled from the spec: the constructor `Key(Type, payload)`, whose code
(in `Key.cpp`) is missing. The spec gives a secret three invariants (§3: a
known level, the level's fixed payload size, a valid scalar at a signing
level) and makes every failure a refusal (§7), so the constructor refuses a
level and payload that break them; otherwise the secret holds the payload and
its encoding. -/
def make (P : Primitives) (type : KeyType) (payload : List Byte) : Except secret_error Key :=
  match type.payload_size with
  | none => Except.error secret_error.format_error
  | some size =>
    if payload.length ≠ size then Except.error secret_error.format_error
    else if type.is_signing && !P.valid_private_key payload then
      Except.error secret_error.crypto_error
    else Except.ok ⟨encode P type payload, payload⟩

/-- Modelled from the spec: the constructor `Key()` ("Construction - generate",
§4.1), whose code is missing. `random` is what the random source delivers,
`none` when it fails. -/
def generate (P : Primitives) (type : TopLevel) (random : Option (List Byte)) :
    Except secret_error Key :=
  match random with
  | none => Except.error secret_error.crypto_error
  | some scalar => make P type.toKeyType scalar

/-- Modelled from the spec: the constructor `Key(std::string)` ("Construction -
from encoded string", §4.1, steps 1 to 6), whose code is missing. -/
def ofString (P : Primitives) (string_secret : String) : Except secret_error Key :=
  let chars := string_secret.data
  -- step 1: a type character and a check character
  if chars.length < 2 then Except.error secret_error.format_error
  else
    match chars.head? with
    | none => Except.error secret_error.format_error
    | some first =>
      -- step 2: the first character tags a level
      match (KeyType.mk first).payload_size with
      | none => Except.error secret_error.format_error
      | some size =>
        -- step 3: the check character over all characters but the last
        if chars.getLast? ≠ some (P.check_char chars.dropLast) then
          Except.error secret_error.format_error
        else
          -- step 4: the middle segment decodes
          match P.base_decode (chars.drop 1).dropLast with
          | none => Except.error secret_error.format_error
          | some payload =>
            -- step 5: the level's size
            if payload.length ≠ size then Except.error secret_error.format_error
            -- step 6: a valid scalar at a signing level
            else if (KeyType.mk first).is_signing && !P.valid_private_key payload then
              Except.error secret_error.crypto_error
            else Except.ok ⟨string_secret, payload⟩

/-- Modelled from the spec: the member `get_Private_Key` (§4.1 "Accessors"),
whose code is missing: the payload of a signing-capable secret, a level error
at every other level. -/
def get_Private_Key (self : Key) : Except secret_error (List Byte) :=
  match self.level with
  | none => Except.error secret_error.level_error
  | some type =>
    if type.is_signing then Except.ok self.payload
    else Except.error secret_error.level_error

/-- Modelled from the spec: the member `get_Public_Key` (§4.1 "Accessors"),
whose code is missing: computed from the scalar at a signing level, the first
`public_key_size` octets of a `ReadOnly` payload, a level error otherwise. -/
def get_Public_Key (P : Primitives) (self : Key) : Except secret_error (List Byte) :=
  match self.level with
  | none => Except.error secret_error.level_error
  | some type =>
    if type.is_signing then
      match P.public_point self.payload with
      | none => Except.error secret_error.crypto_error
      | some point => Except.ok point
    else if type = KeyType.ReadOnly then Except.ok (self.payload.take public_key_size)
    else Except.error secret_error.level_error

/-- Modelled from the spec: the member `derive` (§4.1), whose code is missing.
The level check comes first. A target of the secret's own level gives a copy;
the other signing level gives the same scalar under the other tag; `ReadOnly`
gives the public point followed by its hash; `Download` gives the second hash
of the public point. -/
def derive (P : Primitives) (self : Key) (key_type : KeyType) : Except secret_error Key :=
  match self.level with
  | none => Except.error secret_error.level_error
  | some own =>
    match own.strength, key_type.strength with
    | some held, some wanted =>
      if held < wanted then Except.error secret_error.level_error
      else if key_type = own then Except.ok self
      else if key_type.is_signing then make P key_type self.payload
      else
        match get_Public_Key P self with
        | Except.error e => Except.error e
        | Except.ok point =>
          if key_type = KeyType.ReadOnly then
            make P KeyType.ReadOnly (point ++ P.readonly_hash point)
          else
            make P KeyType.Download (P.download_hash point)
    | _, _ => Except.error secret_error.level_error

/-- Modelled from the spec: the secrets the component produces (§3
"Lifecycle", §4.1): generated, built from a level and a payload, decoded from
a string, or derived from a produced secret. -/
inductive Produced (P : Primitives) : Key → Prop where
  | generated (type : TopLevel) (random : Option (List Byte)) (k : Key) :
      generate P type random = Except.ok k → Produced P k
  | built (type : KeyType) (payload : List Byte) (k : Key) :
      make P type payload = Except.ok k → Produced P k
  | decoded (string_secret : String) (k : Key) :
      ofString P string_secret = Except.ok k → Produced P k
  | derived (s : Key) (key_type : KeyType) (k : Key) :
      Produced P s → derive P s key_type = Except.ok k → Produced P k

end Key

/-! ### A small instance of the collaborators, for evaluating the model -/

/-- Pads or cuts a byte string to `n` octets. -/
def fit (n : Nat) (l : List Byte) : List Byte := (l ++ List.replicate n 0).take n

/-- One octet as one character, 48 places up (so `0` is the digit `0`). -/
def byteChar (b : Byte) : Char := Char.ofNat (b.val + 48)

/-- The octet a character stands for, if any. -/
def charByte (c : Char) : Option Byte :=
  if h : 48 ≤ c.toNat ∧ c.toNat < 304 then some ⟨c.toNat - 48, by omega⟩ else none

/-- Reads a text back octet by octet; fails on a character that stands for no
octet. -/
def decodeChars : List Char → Option (List Byte)
  | [] => some []
  | c :: rest =>
    match charByte c, decodeChars rest with
    | some b, some bs => some (b :: bs)
    | _, _ => none

/-- A concrete, non-cryptographic instance: a scalar is valid when it has a
non-zero octet, its point is the marker `2` before the scalar fitted to 32
octets, the hashes shift every octet by one and by two, a payload is written
one character per octet, and the check character counts the characters. -/
def demoPrimitives : Primitives where
  valid_private_key := fun scalar => scalar.any (fun b => b != 0)
  public_point := fun scalar =>
    if scalar.any (fun b => b != 0) then some ((2 : Byte) :: fit 32 scalar) else none
  readonly_hash := fun point => fit 32 (point.map (fun b => b + 1))
  download_hash := fun point => fit 32 (point.map (fun b => b + 2))
  base_encode := fun payload => payload.map byteChar
  base_decode := decodeChars
  check_char := fun body => Char.ofNat (97 + body.length % 26)

/-- A 32-octet scalar: the octets 1 to 32. -/
def demoScalar : List Byte := (List.range 32).map (fun n => Fin.ofNat (n + 1))

end syncfs

end librevault

/-! # Properties -/

namespace librevault

/-! ## Result iterators -/

namespace SQLiteResultIterator

/-- The tag of the value `fill_result` appends for a column is the type the
statement reports for that column. -/
theorem fill_column_value_type (stmt : sqlite3_stmt) (iCol : Nat) :
    (fill_column stmt iCol).value_type = sqlite3_column_type stmt iCol := by
  unfold fill_column
  cases h : sqlite3_column_type stmt iCol <;> rfl

/-- The loop of `fill_result` from `iCol` on: while the column count fits the
32-bit counter it ends, having appended one value for each remaining column in
order. -/
theorem fill_loop_eq (stmt : sqlite3_stmt) (size : Nat) (hsize : size < UINT_WIDTH) :
    ∀ (fuel iCol : Nat) (result : List SQLValue), iCol ≤ size → size - iCol < fuel →
      fill_loop stmt size fuel iCol result =
        some (result ++ (List.range' iCol (size - iCol)).map (fill_column stmt)) := by
  intro fuel
  induction fuel with
  | zero => intro iCol result _ h; omega
  | succ fuel ih =>
    intro iCol result hle hfuel
    unfold fill_loop
    by_cases hlt : iCol < size
    · have hwrap : (iCol + 1) % UINT_WIDTH = iCol + 1 := Nat.mod_eq_of_lt (by omega)
      have hsplit : size - iCol = (size - (iCol + 1)) + 1 := by omega
      rw [if_pos hlt, hwrap, ih (iCol + 1) _ (by omega) (by omega), hsplit, List.range'_succ]
      simp
    · have hzero : size - iCol = 0 := by omega
      rw [if_neg hlt, hzero]
      simp

/-- Reading the row built by the loop of `fill_result` at a column index. -/
theorem map_fill_column_get? (stmt : sqlite3_stmt) (size i : Nat) (hi : i < size) :
    ((List.range' 0 size).map (fill_column stmt)).get? i = some (fill_column stmt i) := by
  simp [List.get?_eq_getElem?, List.getElem?_map, List.getElem?_range', hi]

/-- C9: `fill_result` keeps the row in step with the columns. Provided the
column count fits the 32-bit loop counter and the loop is given more steps than
there are columns: when the step code is `SQLITE_ROW` the call ends, the row
afterwards holds exactly `cols.size()` values, the value at each column index
below `cols.size()` carries the type the statement reports for that column,
whatever the row held before, and no other member changes; when the step code
is not `SQLITE_ROW` the iterator, its row included, is left as it was. -/
theorem fill_result_row_matches_columns (stmt : sqlite3_stmt) (self : SQLiteResultIterator)
    (fuel : Nat) (hsize : self.cols.length < UINT_WIDTH) (hfuel : self.cols.length < fuel) :
    (self.rescode = SQLITE_ROW →
      ∃ after, fill_result fuel stmt self = some after ∧
        after.result.length = self.cols.length ∧
        (∀ i, i < self.cols.length →
          ∃ v, after.get i = some v ∧ v.value_type = sqlite3_column_type stmt i) ∧
        after = { self with result := after.result }) ∧
    (self.rescode ≠ SQLITE_ROW → fill_result fuel stmt self = some self) := by
  constructor
  · intro hrow
    have hloop := fill_loop_eq stmt self.cols.length hsize fuel 0 [] (Nat.zero_le _) (by omega)
    simp only [Nat.sub_zero, List.nil_append] at hloop
    refine ⟨{ self with result := (List.range' 0 self.cols.length).map (fill_column stmt) },
      ?_, ?_, ?_, rfl⟩
    · unfold fill_result
      rw [if_neg (by simp [hrow]), hloop]
      rfl
    · simp
    · intro i hi
      exact ⟨fill_column stmt i, map_fill_column_get? stmt _ i hi,
        fill_column_value_type stmt i⟩
  · intro hrow
    unfold fill_result
    rw [if_pos hrow]

/-- Witness for C9: a two-column row (an integer and a text) read into an
iterator whose row held one stale value. -/
theorem fill_result_row_matches_columns_witness :
    ∃ after,
      fill_result 3 (fun i => if i = 0 then Column.integer 5 else Column.text "ab")
        ⟨1, 0, ["id", "name"], 0, SQLITE_ROW, [SQLValue.null]⟩ = some after ∧
      after.result.length = 2 ∧
      (∀ i, i < 2 → ∃ v, after.get i = some v ∧
        v.value_type =
          sqlite3_column_type (fun i => if i = 0 then Column.integer 5 else Column.text "ab") i) ∧
      after = { (⟨1, 0, ["id", "name"], 0, SQLITE_ROW, [SQLValue.null]⟩ : SQLiteResultIterator)
                with result := after.result } :=
  (fill_result_row_matches_columns
    (fun i => if i = 0 then Column.integer 5 else Column.text "ab")
    ⟨1, 0, ["id", "name"], 0, SQLITE_ROW, [SQLValue.null]⟩ 3 (by decide) (by decide)).1 rfl

/-- C7: iterating stops exactly when the statement has no more rows. For an
iterator whose statement handle differs from the one held by the `end()`
sentinel, `it != end()` is false if and only if the iterator's last step code
is `SQLITE_DONE` or `SQLITE_OK`; so it is true for `SQLITE_ROW` and for every
error code. -/
theorem ne_end_false_iff (res : SQLiteResult) (it : SQLiteResultIterator)
    (end_stmt : Nat) (end_idx : Int)
    (hstmt : it.prepared_stmt ≠ (res.end_ end_stmt end_idx).prepared_stmt) :
    (it.ne (res.end_ end_stmt end_idx) = false ↔
      (it.rescode = SQLITE_DONE ∨ it.rescode = SQLITE_OK)) ∧
    ((it.rescode ≠ SQLITE_DONE ∧ it.rescode ≠ SQLITE_OK) →
      it.ne (res.end_ end_stmt end_idx) = true) := by
  have hstmt2 : it.prepared_stmt ≠ end_stmt := hstmt
  have hiff : it.ne (res.end_ end_stmt end_idx) = false ↔
      (it.rescode = SQLITE_DONE ∨ it.rescode = SQLITE_OK) := by
    simp [SQLiteResultIterator.ne, SQLiteResult.end_, ofRescode, hstmt2]
    tauto
  refine ⟨hiff, ?_⟩
  intro hne
  cases hval : it.ne (res.end_ end_stmt end_idx) with
  | true => rfl
  | false =>
    rcases hiff.mp hval with h | h
    · exact absurd h hne.1
    · exact absurd h hne.2

/-- Witness for C7: an iterator on statement 7 whose last step returned
`SQLITE_DONE`, against a sentinel holding the null handle. -/
theorem ne_end_false_iff_witness :
    ((⟨7, 3, ["id"], 3, SQLITE_DONE, []⟩ : SQLiteResultIterator).ne
        ((⟨7, 3, ["id"], SQLITE_DONE⟩ : SQLiteResult).end_ 0 0) = false ↔
      ((⟨7, 3, ["id"], 3, SQLITE_DONE, []⟩ : SQLiteResultIterator).rescode = SQLITE_DONE ∨
       (⟨7, 3, ["id"], 3, SQLITE_DONE, []⟩ : SQLiteResultIterator).rescode = SQLITE_OK)) ∧
    (((⟨7, 3, ["id"], 3, SQLITE_DONE, []⟩ : SQLiteResultIterator).rescode ≠ SQLITE_DONE ∧
      (⟨7, 3, ["id"], 3, SQLITE_DONE, []⟩ : SQLiteResultIterator).rescode ≠ SQLITE_OK) →
      (⟨7, 3, ["id"], 3, SQLITE_DONE, []⟩ : SQLiteResultIterator).ne
        ((⟨7, 3, ["id"], SQLITE_DONE⟩ : SQLiteResult).end_ 0 0) = true) :=
  ne_end_false_iff ⟨7, 3, ["id"], SQLITE_DONE⟩ ⟨7, 3, ["id"], 3, SQLITE_DONE, []⟩ 0 0 (by decide)

/-- C8, as stated, fails: two iterators on different statements that have both
finished are neither `==` nor `!=`. -/
theorem ne_not_always_not_eq :
    ¬ ∀ a b : SQLiteResultIterator, a.ne b = !(a.eq b) := by
  intro h
  have hc := h ⟨1, 0, [], 0, SQLITE_DONE, []⟩ ⟨2, 0, [], 0, SQLITE_DONE, []⟩
  revert hc
  decide

/-- C8, amended: unless both iterators have a step code of `SQLITE_DONE` or
`SQLITE_OK`, `a != b` is the negation of `a == b`; when both have, `a != b` is
false. -/
theorem ne_eq_not_eq_unless_both_done (a b : SQLiteResultIterator) :
    (¬ ((b.rescode = SQLITE_DONE ∨ b.rescode = SQLITE_OK) ∧
        (a.rescode = SQLITE_DONE ∨ a.rescode = SQLITE_OK)) → a.ne b = !(a.eq b)) ∧
    (((b.rescode = SQLITE_DONE ∨ b.rescode = SQLITE_OK) ∧
        (a.rescode = SQLITE_DONE ∨ a.rescode = SQLITE_OK)) → a.ne b = false) := by
  constructor
  · intro h
    have hcond : ((b.rescode == SQLITE_DONE || b.rescode == SQLITE_OK) &&
        (a.rescode == SQLITE_DONE || a.rescode == SQLITE_OK)) = false := by
      cases hc : ((b.rescode == SQLITE_DONE || b.rescode == SQLITE_OK) &&
        (a.rescode == SQLITE_DONE || a.rescode == SQLITE_OK)) with
      | false => rfl
      | true =>
        exfalso
        apply h
        simpa using hc
    unfold SQLiteResultIterator.ne SQLiteResultIterator.eq
    rw [hcond]
    cases (a.prepared_stmt == b.prepared_stmt && a.current_idx == b.current_idx) <;> simp
  · intro h
    have hcond : ((b.rescode == SQLITE_DONE || b.rescode == SQLITE_OK) &&
        (a.rescode == SQLITE_DONE || a.rescode == SQLITE_OK)) = true := by
      simpa using h
    unfold SQLiteResultIterator.ne
    rw [hcond]
    simp

/-- Witness for C8, amended: an iterator with a row ready against a finished
one on the same statement at another position, and two finished iterators. -/
theorem ne_eq_not_eq_unless_both_done_witness :
    (⟨1, 1, [], 1, SQLITE_ROW, []⟩ : SQLiteResultIterator).ne ⟨1, 2, [], 2, SQLITE_DONE, []⟩ =
        !((⟨1, 1, [], 1, SQLITE_ROW, []⟩ : SQLiteResultIterator).eq
          ⟨1, 2, [], 2, SQLITE_DONE, []⟩) ∧
    (⟨1, 0, [], 0, SQLITE_OK, []⟩ : SQLiteResultIterator).ne ⟨2, 0, [], 0, SQLITE_DONE, []⟩ =
        false :=
  ⟨(ne_eq_not_eq_unless_both_done ⟨1, 1, [], 1, SQLITE_ROW, []⟩
      ⟨1, 2, [], 2, SQLITE_DONE, []⟩).1 (by decide),
   (ne_eq_not_eq_unless_both_done ⟨1, 0, [], 0, SQLITE_OK, []⟩
      ⟨2, 0, [], 0, SQLITE_DONE, []⟩).2 (by decide)⟩

end SQLiteResultIterator

/-! ## Savepoints -/

namespace SQLiteSavepoint

/-- Calling `commit()` some number of times sends that many `RELEASE`
statements. -/
theorem iterate_commit_sent (sp : SQLiteSavepoint) (commits : Nat) (db : SQLiteDB) :
    (Nat.iterate sp.commit commits db).sent =
      db.sent ++ List.replicate commits ("RELEASE " ++ sp.name) := by
  induction commits generalizing db with
  | zero => simp
  | succ n ih =>
    rw [Function.iterate_succ_apply, ih]
    simp [commit, SQLiteDB.exec, List.replicate_succ]

/-- C10: over its lifetime a savepoint named `n` sends, in order, `SAVEPOINT n`
at construction, `RELEASE n` once per call of `commit()`, and `ROLLBACK TO n`
at destruction; the rollback is sent whether or not `commit()` was called. -/
theorem lifetime_sent (db : SQLiteDB) (n : String) (commits : Nat) :
    (lifetime db n commits).sent =
      db.sent ++ ["SAVEPOINT " ++ n] ++ List.replicate commits ("RELEASE " ++ n) ++
        ["ROLLBACK TO " ++ n] := by
  simp [lifetime, create, destroy, SQLiteDB.exec, iterate_commit_sent]

end SQLiteSavepoint

/-! ## Secrets: the accessors defined in `Key.h` -/

namespace syncfs

namespace Key

/-- C6: for a secret whose encoded string is not empty, `getType` returns the
level whose tag character (`A` Owner, `B` ReadWrite, `C` ReadOnly, `D`
Download) is the first character of the encoded string, `getCheckChar`
returns its last character, and these two, `get_payload` and the string
conversion leave the secret (encoded string and payload) as it was. -/
theorem accessors_read_encoded_string (k : Key) (hne : k.secret_s.data ≠ []) :
    ∃ first last,
      k.secret_s.data.head? = some first ∧ k.secret_s.data.getLast? = some last ∧
      k.getType = (some ⟨first⟩, k) ∧ k.getCheckChar = (some last, k) ∧
      k.get_payload = (k.payload, k) ∧ k.toStdString = (k.secret_s, k) ∧
      (k.getType.1 = some KeyType.Owner ↔ first = 'A') ∧
      (k.getType.1 = some KeyType.ReadWrite ↔ first = 'B') ∧
      (k.getType.1 = some KeyType.ReadOnly ↔ first = 'C') ∧
      (k.getType.1 = some KeyType.Download ↔ first = 'D') := by
  cases hdata : k.secret_s.data with
  | nil => exact absurd hdata hne
  | cons first rest =>
    refine ⟨first, (first :: rest).getLast (by simp), rfl, ?_, ?_, ?_, rfl, rfl, ?_, ?_, ?_, ?_⟩
    · exact List.getLast?_eq_getLast _ _
    · simp [getType, hdata]
    · simp only [getCheckChar, hdata]
      rw [List.getLast?_eq_getLast _ (by simp)]
    all_goals simp [getType, hdata, KeyType.Owner, KeyType.ReadWrite, KeyType.ReadOnly,
      KeyType.Download]

/-- Witness for C6: a secret whose encoded string is `Cxyz`. -/
theorem accessors_read_encoded_string_witness :
    ∃ first last,
      (⟨"Cxyz", [1, 2]⟩ : Key).secret_s.data.head? = some first ∧
      (⟨"Cxyz", [1, 2]⟩ : Key).secret_s.data.getLast? = some last ∧
      (⟨"Cxyz", [1, 2]⟩ : Key).getType = (some ⟨first⟩, ⟨"Cxyz", [1, 2]⟩) ∧
      (⟨"Cxyz", [1, 2]⟩ : Key).getCheckChar = (some last, ⟨"Cxyz", [1, 2]⟩) ∧
      (⟨"Cxyz", [1, 2]⟩ : Key).get_payload = ([1, 2], ⟨"Cxyz", [1, 2]⟩) ∧
      (⟨"Cxyz", [1, 2]⟩ : Key).toStdString = ("Cxyz", ⟨"Cxyz", [1, 2]⟩) ∧
      ((⟨"Cxyz", [1, 2]⟩ : Key).getType.1 = some KeyType.Owner ↔ first = 'A') ∧
      ((⟨"Cxyz", [1, 2]⟩ : Key).getType.1 = some KeyType.ReadWrite ↔ first = 'B') ∧
      ((⟨"Cxyz", [1, 2]⟩ : Key).getType.1 = some KeyType.ReadOnly ↔ first = 'C') ∧
      ((⟨"Cxyz", [1, 2]⟩ : Key).getType.1 = some KeyType.Download ↔ first = 'D') :=
  accessors_read_encoded_string ⟨"Cxyz", [1, 2]⟩ (by decide)

end Key

/-! ## Secrets: levels, sizes and refusals -/

namespace KeyType

/-- The characters with a payload size are exactly the four level tags. -/
theorem payload_size_eq_none_iff (c : Char) :
    (KeyType.mk c).payload_size = none ↔ c ∉ ['A', 'B', 'C', 'D'] := by
  unfold payload_size Owner ReadWrite ReadOnly Download
  by_cases hA : c = 'A'
  · simp [hA]
  · by_cases hB : c = 'B'
    · simp [hB]
    · by_cases hC : c = 'C'
      · simp [hC]
      · by_cases hD : c = 'D'
        · simp [hD]
        · simp [hA, hB, hC, hD]

end KeyType

namespace Key

/-- C1: a `ReadOnly` secret refused `Owner` and `ReadWrite`: both `derive`
calls fail with the level error. More generally, whenever the target level is
strictly stronger than the level the secret holds (Owner/ReadWrite above
ReadOnly above Download), `derive` fails with the level error and returns no
secret, whatever the collaborators compute. -/
theorem derive_stronger_level_error (P : Primitives) (s : Key) :
    (s.level = some KeyType.ReadOnly →
      derive P s KeyType.Owner = Except.error secret_error.level_error ∧
      derive P s KeyType.ReadWrite = Except.error secret_error.level_error) ∧
    (∀ (own target : KeyType) (held wanted : Nat), s.level = some own →
      own.strength = some held → target.strength = some wanted → held < wanted →
      derive P s target = Except.error secret_error.level_error) := by
  have hgeneral : ∀ (own target : KeyType) (held wanted : Nat), s.level = some own →
      own.strength = some held → target.strength = some wanted → held < wanted →
      derive P s target = Except.error secret_error.level_error := by
    intro own target held wanted hlevel hheld hwanted hlt
    simp [derive, hlevel, hheld, hwanted, hlt]
  refine ⟨fun hlevel => ⟨?_, ?_⟩, hgeneral⟩
  · exact hgeneral KeyType.ReadOnly KeyType.Owner 1 2 hlevel (by decide) (by decide) (by decide)
  · exact hgeneral KeyType.ReadOnly KeyType.ReadWrite 1 2 hlevel (by decide) (by decide)
      (by decide)

/-- Witness for C1: the `ReadOnly` secret `Cxyz` asked for the two signing
levels, and the `Download` secret `Dxyz` asked for `ReadOnly`. -/
theorem derive_stronger_level_error_witness :
    (derive demoPrimitives ⟨"Cxyz", []⟩ KeyType.Owner = Except.error secret_error.level_error ∧
      derive demoPrimitives ⟨"Cxyz", []⟩ KeyType.ReadWrite =
        Except.error secret_error.level_error) ∧
    derive demoPrimitives ⟨"Dxyz", []⟩ KeyType.ReadOnly =
      Except.error secret_error.level_error :=
  ⟨(derive_stronger_level_error demoPrimitives ⟨"Cxyz", []⟩).1 rfl,
   (derive_stronger_level_error demoPrimitives ⟨"Dxyz", []⟩).2 KeyType.Download
      KeyType.ReadOnly 0 1 rfl rfl rfl (by decide)⟩

/-- C4: at the `Download` level `get_Private_Key` and `get_Public_Key` both
fail with the level error; at the `ReadOnly` level `get_Private_Key` fails with
the level error and `get_Public_Key` succeeds. -/
theorem key_getters_by_level (P : Primitives) (k : Key) :
    (k.level = some KeyType.Download →
      k.get_Private_Key = Except.error secret_error.level_error ∧
      k.get_Public_Key P = Except.error secret_error.level_error) ∧
    (k.level = some KeyType.ReadOnly →
      k.get_Private_Key = Except.error secret_error.level_error ∧
      ∃ point, k.get_Public_Key P = Except.ok point) := by
  have hD : KeyType.Download.is_signing = false := by decide
  have hR : KeyType.ReadOnly.is_signing = false := by decide
  have hDR : KeyType.Download ≠ KeyType.ReadOnly := by decide
  constructor
  · intro hlevel
    constructor
    · simp [get_Private_Key, hlevel, hD]
    · simp [get_Public_Key, hlevel, hD, hDR]
  · intro hlevel
    constructor
    · simp [get_Private_Key, hlevel, hR]
    · exact ⟨k.payload.take public_key_size, by simp [get_Public_Key, hlevel, hR]⟩

/-- Witness for C4: the `Download` secret `Dxyz` and the `ReadOnly` secret
`Cxyz`. -/
theorem key_getters_by_level_witness :
    ((⟨"Dxyz", [7]⟩ : Key).get_Private_Key = Except.error secret_error.level_error ∧
      (⟨"Dxyz", [7]⟩ : Key).get_Public_Key demoPrimitives =
        Except.error secret_error.level_error) ∧
    ((⟨"Cxyz", [7]⟩ : Key).get_Private_Key = Except.error secret_error.level_error ∧
      ∃ point, (⟨"Cxyz", [7]⟩ : Key).get_Public_Key demoPrimitives = Except.ok point) :=
  ⟨(key_getters_by_level demoPrimitives ⟨"Dxyz", [7]⟩).1 rfl,
   (key_getters_by_level demoPrimitives ⟨"Cxyz", [7]⟩).2 rfl⟩

/-- A decoded secret caches the string it was decoded from, its first
character tags a level, and at a signing level its payload is a valid
scalar. -/
theorem ofString_ok (P : Primitives) (string_secret : String) (k : Key)
    (h : ofString P string_secret = Except.ok k) :
    k.secret_s = string_secret ∧
    ∃ first, string_secret.data.head? = some first ∧ first ∈ ['A', 'B', 'C', 'D'] ∧
      ((KeyType.mk first).is_signing = true → P.valid_private_key k.payload = true) := by
  unfold ofString at h
  simp only at h
  split at h
  · cases h
  · split at h
    · cases h
    · rename_i first hfirst
      split at h
      · cases h
      · rename_i size hsize
        have hknown : first ∈ ['A', 'B', 'C', 'D'] := by
          by_contra hc
          rw [(KeyType.payload_size_eq_none_iff first).mpr hc] at hsize
          cases hsize
        split at h
        · cases h
        · split at h
          · cases h
          · split at h
            · cases h
            · split at h
              · cases h
              · rename_i hvalid
                cases h
                refine ⟨rfl, first, hfirst, hknown, ?_⟩
                intro hsign
                simpa [hsign] using hvalid

/-- C2: constructing a secret from a string either fails or gives a secret
whose level is the one tagged by the first character of the string. The
construction fails with the format error when the first character is none of
`A`, `B`, `C`, `D`, when the last character is not the check character
recomputed over the characters before it, and when the decoded payload does
not have the size fixed for the level: 32 octets (private key) for `Owner` and
`ReadWrite`, 33 + 32 (public key, encryption key) for `ReadOnly`, 32
(encryption key) for `Download`. -/
theorem ofString_level_and_refusals (P : Primitives) (string_secret : String) :
    (∀ k, ofString P string_secret = Except.ok k →
      ∃ first, string_secret.data.head? = some first ∧ first ∈ ['A', 'B', 'C', 'D'] ∧
        k.level = some ⟨first⟩) ∧
    ((∀ first, string_secret.data.head? = some first → first ∉ ['A', 'B', 'C', 'D']) →
      ofString P string_secret = Except.error secret_error.format_error) ∧
    (string_secret.data.getLast? ≠ some (P.check_char string_secret.data.dropLast) →
      ofString P string_secret = Except.error secret_error.format_error) ∧
    (∀ first size payload, string_secret.data.head? = some first →
      (KeyType.mk first).payload_size = some size →
      P.base_decode (string_secret.data.drop 1).dropLast = some payload →
      payload.length ≠ size →
      ofString P string_secret = Except.error secret_error.format_error) ∧
    (KeyType.Owner.payload_size = some 32 ∧ KeyType.ReadWrite.payload_size = some 32 ∧
      KeyType.ReadOnly.payload_size = some (33 + 32) ∧
      KeyType.Download.payload_size = some 32 ∧
      private_key_size = 32 ∧ public_key_size = 33 ∧ encryption_key_size = 32) := by
  refine ⟨?_, ?_, ?_, ?_, ?_⟩
  · intro k hk
    obtain ⟨hs, first, hfirst, hknown, _⟩ := ofString_ok P string_secret k hk
    refine ⟨first, hfirst, hknown, ?_⟩
    simp [level, getType, hs, hfirst]
  · intro hfirst
    unfold ofString
    simp only
    split
    · rfl
    · split
      · rfl
      · rename_i first hhead
        rw [(KeyType.payload_size_eq_none_iff first).mpr (hfirst first hhead)]
  · intro hcheck
    unfold ofString
    simp only
    split
    · rfl
    · split
      · rfl
      · split
        · rfl
        · rfl
  · intro first size payload hhead hsize hdecode hlen
    unfold ofString
    simp only
    split
    · rfl
    · rw [hhead]
      simp only [hsize]
      split
      · rfl
      · rw [hdecode]
        simp only [if_pos hlen]
  · decide

/-- Witness for C2: `Zabc` carries no level tag, `D0x` has a wrong check
character, `D0c` has the right check character but a one-octet payload, and
the encoded `ReadWrite` secret of the scalar 1..32 decodes to level `B`. -/
theorem ofString_level_and_refusals_witness :
    ofString demoPrimitives "Zabc" = Except.error secret_error.format_error ∧
    ofString demoPrimitives "D0x" = Except.error secret_error.format_error ∧
    ofString demoPrimitives "D0c" = Except.error secret_error.format_error ∧
    ∃ first, "B123456789:;<=>?@ABCDEFGHIJKLMNOPh".data.head? = some first ∧
      first ∈ ['A', 'B', 'C', 'D'] ∧
      (⟨"B123456789:;<=>?@ABCDEFGHIJKLMNOPh", demoScalar⟩ : Key).level = some ⟨first⟩ :=
  ⟨(ofString_level_and_refusals demoPrimitives "Zabc").2.1 (by decide),
   (ofString_level_and_refusals demoPrimitives "D0x").2.2.1 (by decide),
   (ofString_level_and_refusals demoPrimitives "D0c").2.2.2.1 'D' 32 [0] rfl rfl rfl (by decide),
   (ofString_level_and_refusals demoPrimitives "B123456789:;<=>?@ABCDEFGHIJKLMNOPh").1
      ⟨"B123456789:;<=>?@ABCDEFGHIJKLMNOPh", demoScalar⟩ rfl⟩

end Key

namespace Key

/-! ## Secrets: construction, round trip and derivation -/

/-- What a successful `Key(Type, payload)` establishes. -/
theorem make_ok (P : Primitives) (type : KeyType) (payload : List Byte) (k : Key)
    (h : make P type payload = Except.ok k) :
    k = ⟨encode P type payload, payload⟩ ∧ type.payload_size = some payload.length ∧
      (type.is_signing = true → P.valid_private_key payload = true) := by
  unfold make at h
  split at h
  · cases h
  · rename_i size hsize
    split at h
    · cases h
    · rename_i hlen
      split at h
      · cases h
      · rename_i hvalid
        cases h
        refine ⟨rfl, ?_, ?_⟩
        · rw [hsize]
          simp only [ne_eq, Decidable.not_not] at hlen
          rw [hlen]
        · intro hsign
          simpa [hsign] using hvalid

/-- Where `Key(Type, payload)` succeeds. -/
theorem make_eq_ok (P : Primitives) (type : KeyType) (payload : List Byte)
    (hsize : type.payload_size = some payload.length)
    (hvalid : type.is_signing = true → P.valid_private_key payload = true) :
    make P type payload = Except.ok ⟨encode P type payload, payload⟩ := by
  unfold make
  rw [hsize]
  simp only [ne_eq, not_true_eq_false, if_false]
  split
  · rename_i hbad
    simp only [Bool.and_eq_true, Bool.not_eq_true'] at hbad
    rw [hvalid hbad.1] at hbad
    exact absurd hbad.2 (by simp)
  · rfl

/-- The level of an encoded secret is the level it was encoded at. -/
theorem level_encode (P : Primitives) (type : KeyType) (payload : List Byte) :
    (⟨encode P type payload, payload⟩ : Key).level = some type := rfl

/-- Decoding inverts encoding on every level and payload the constructor
accepts. -/
theorem ofString_encode (P : Primitives)
    (hcodec : ∀ payload, P.base_decode (P.base_encode payload) = some payload)
    (type : KeyType) (payload : List Byte)
    (hsize : type.payload_size = some payload.length)
    (hvalid : type.is_signing = true → P.valid_private_key payload = true) :
    ofString P (encode P type payload) = Except.ok ⟨encode P type payload, payload⟩ := by
  have hbad : (type.is_signing && !P.valid_private_key payload) = false := by
    cases hsign : type.is_signing with
    | false => rfl
    | true => simp [hvalid hsign]
  have hchars : (encode P type payload).data =
      (type.code :: P.base_encode payload) ++
        [P.check_char (type.code :: P.base_encode payload)] := rfl
  have hlen : ¬ ((type.code :: P.base_encode payload) ++
      [P.check_char (type.code :: P.base_encode payload)]).length < 2 := by
    simp
  have hhead : ((type.code :: P.base_encode payload) ++
      [P.check_char (type.code :: P.base_encode payload)]).head? = some type.code := rfl
  have hdrop : (List.drop 1 ((type.code :: P.base_encode payload) ++
      [P.check_char (type.code :: P.base_encode payload)])).dropLast =
      P.base_encode payload := by
    simp [List.dropLast_concat]
  have hlast : ((type.code :: P.base_encode payload) ++
      [P.check_char (type.code :: P.base_encode payload)]).dropLast =
      type.code :: P.base_encode payload := List.dropLast_concat
  have hget : ((type.code :: P.base_encode payload) ++
      [P.check_char (type.code :: P.base_encode payload)]).getLast? =
      some (P.check_char (type.code :: P.base_encode payload)) := List.getLast?_concat _
  unfold ofString
  simp only [hchars, hlen, hhead, hdrop, hlast, hget, hsize, hcodec, hbad, if_false, ne_eq,
    not_true_eq_false]
  simp

/-- A derived secret is the source itself or comes out of the constructor
`Key(Type, payload)`. -/
theorem derive_ok_cases (P : Primitives) (s : Key) (key_type : KeyType) (k : Key)
    (h : derive P s key_type = Except.ok k) :
    k = s ∨ ∃ type payload, make P type payload = Except.ok k := by
  unfold derive at h
  split at h
  · cases h
  · split at h
    · split at h
      · cases h
      · split at h
        · cases h
          exact Or.inl rfl
        · split at h
          · exact Or.inr ⟨_, _, h⟩
          · split at h
            · cases h
            · split at h
              · exact Or.inr ⟨_, _, h⟩
              · exact Or.inr ⟨_, _, h⟩
    · cases h

/-- Every produced secret decodes from its own encoded string. -/
theorem Produced.ofString_secret_s (P : Primitives)
    (hcodec : ∀ payload, P.base_decode (P.base_encode payload) = some payload)
    (s : Key) (hs : Produced P s) : ofString P s.secret_s = Except.ok s := by
  have hmake : ∀ type payload k, make P type payload = Except.ok k →
      ofString P k.secret_s = Except.ok k := by
    intro type payload k hk
    obtain ⟨hk1, hsize, hvalid⟩ := make_ok P type payload k hk
    subst hk1
    exact ofString_encode P hcodec type payload hsize hvalid
  induction hs with
  | generated type random k hk =>
    cases random with
    | none => cases hk
    | some scalar => exact hmake _ _ k hk
  | built type payload k hk => exact hmake _ _ k hk
  | decoded string_secret k hk =>
    have hstr := (ofString_ok P string_secret k hk).1
    rw [hstr]
    exact hk
  | derived s key_type k _ hk ih =>
    rcases derive_ok_cases P s key_type k hk with hsame | ⟨type, payload, hmk⟩
    · rw [hsame]
      exact ih
    · exact hmake _ _ k hmk

/-- Every produced secret of a signing level holds a valid private scalar. -/
theorem Produced.valid_scalar (P : Primitives) (s : Key) (hs : Produced P s) :
    ∀ type, s.level = some type → type.is_signing = true →
      P.valid_private_key s.payload = true := by
  have hmake : ∀ type payload k, make P type payload = Except.ok k →
      ∀ own, k.level = some own → own.is_signing = true →
        P.valid_private_key k.payload = true := by
    intro type payload k hk own hown hsign
    obtain ⟨hk1, _, hvalid⟩ := make_ok P type payload k hk
    subst hk1
    rw [level_encode] at hown
    cases hown
    exact hvalid hsign
  induction hs with
  | generated type random k hk =>
    cases random with
    | none => cases hk
    | some scalar => exact hmake _ _ k hk
  | built type payload k hk => exact hmake _ _ k hk
  | decoded string_secret k hk =>
    intro own hown hsign
    obtain ⟨hstr, first, hfirst, _, hvalid⟩ := ofString_ok P string_secret k hk
    have hlevel : k.level = some ⟨first⟩ := by simp [level, getType, hstr, hfirst]
    rw [hlevel] at hown
    cases hown
    exact hvalid hsign
  | derived s key_type k _ hk ih =>
    rcases derive_ok_cases P s key_type k hk with hsame | ⟨type, payload, hmk⟩
    · rw [hsame]
      exact ih
    · exact hmake _ _ k hmk

end Key

/-! ### The small instance satisfies the collaborators' laws -/

/-- A code point below the surrogate range is the number it was made from. -/
theorem toNat_ofNat_small (n : Nat) (h : n < 55296) : (Char.ofNat n).toNat = n := by
  have hv : n.isValidChar := Or.inl h
  simp only [Char.ofNat, hv, dif_pos, Char.toNat, Char.ofNatAux]
  simp [UInt32.toNat]

/-- Reading back the character written for an octet gives the octet. -/
theorem charByte_byteChar (b : Byte) : charByte (byteChar b) = some b := by
  have h := toNat_ofNat_small (b.val + 48) (by omega)
  unfold charByte byteChar
  rw [dif_pos (by rw [h]; omega)]
  simp [h]

/-- Fitting to `n` octets gives `n` octets. -/
theorem length_fit (n : Nat) (l : List Byte) : (fit n l).length = n := by
  simp [fit]

/-- The small instance is lawful. -/
theorem demoPrimitives_lawful : demoPrimitives.Lawful where
  decode_encode := by
    intro payload
    show decodeChars (payload.map byteChar) = some payload
    induction payload with
    | nil => rfl
    | cons b rest ih => simp [decodeChars, charByte_byteChar, ih]
  point_of_valid := by
    intro scalar hvalid
    have hany : (scalar.any (fun b => b != 0)) = true := hvalid
    refine ⟨(2 : Byte) :: fit 32 scalar, ?_⟩
    show (if (scalar.any (fun b => b != 0)) = true then some ((2 : Byte) :: fit 32 scalar)
      else none) = some ((2 : Byte) :: fit 32 scalar)
    rw [if_pos hany]
  point_size := by
    intro scalar point hpoint
    simp only [demoPrimitives] at hpoint
    split at hpoint
    · cases hpoint
      simp [length_fit, Key.public_key_size]
    · cases hpoint
  readonly_hash_size := fun point => length_fit 32 _
  download_hash_size := fun point => length_fit 32 _

namespace Key

/-- C3: round trip. For every secret this component produces (generated,
built from a level and a payload, decoded, or derived from such a secret),
decoding the string the secret converts to succeeds and gives a secret with
the same level and the same payload. -/
theorem decode_encode_round_trip (P : Primitives) (hP : P.Lawful) (s : Key)
    (hs : Produced P s) :
    ∃ k, ofString P s.toStdString.1 = Except.ok k ∧ k.getType.1 = s.getType.1 ∧
      k.get_payload.1 = s.get_payload.1 :=
  ⟨s, Produced.ofString_secret_s P hP.decode_encode s hs, rfl, rfl⟩

/-- Witness for C3: the `ReadWrite` secret generated from the scalar 1..32. -/
theorem decode_encode_round_trip_witness :
    ∃ k, ofString demoPrimitives "B123456789:;<=>?@ABCDEFGHIJKLMNOPh" = Except.ok k ∧
      k.getType.1 = some KeyType.ReadWrite ∧ k.get_payload.1 = demoScalar :=
  decode_encode_round_trip demoPrimitives demoPrimitives_lawful
    ⟨"B123456789:;<=>?@ABCDEFGHIJKLMNOPh", demoScalar⟩
    (Produced.generated TopLevel.ReadWrite (some demoScalar) _ rfl)

/-- C5: for every signing-capable secret (`Owner` or `ReadWrite`),
`derive(Download)` and `derive(ReadOnly).derive(Download)` both succeed and
give secrets of the same level, `Download`, with the same payload. -/
theorem derive_download_direct_and_via_readonly (P : Primitives) (hP : P.Lawful) (s : Key)
    (hs : Produced P s)
    (hlevel : s.level = some KeyType.Owner ∨ s.level = some KeyType.ReadWrite) :
    ∃ d1 r d2, derive P s KeyType.Download = Except.ok d1 ∧
      derive P s KeyType.ReadOnly = Except.ok r ∧
      derive P r KeyType.Download = Except.ok d2 ∧
      d1.getType.1 = some KeyType.Download ∧ d1.getType.1 = d2.getType.1 ∧
      d1.get_payload.1 = d2.get_payload.1 := by
  obtain ⟨own, hown, hsign, hstrength, hneD, hneR⟩ : ∃ own, s.level = some own ∧
      own.is_signing = true ∧ own.strength = some 2 ∧ KeyType.Download ≠ own ∧
      KeyType.ReadOnly ≠ own := by
    rcases hlevel with h | h
    · exact ⟨_, h, by decide, by decide, by decide, by decide⟩
    · exact ⟨_, h, by decide, by decide, by decide, by decide⟩
  have hvalid := Produced.valid_scalar P s hs own hown hsign
  obtain ⟨point, hpoint⟩ := hP.point_of_valid s.payload hvalid
  have hpsize := hP.point_size s.payload point hpoint
  have hpub : get_Public_Key P s = Except.ok point := by
    simp [get_Public_Key, hown, hsign, hpoint]
  have hDsign : KeyType.Download.is_signing = false := by decide
  have hRsign : KeyType.ReadOnly.is_signing = false := by decide
  have hDR : KeyType.Download ≠ KeyType.ReadOnly := by decide
  have hmakeD : make P KeyType.Download (P.download_hash point) =
      Except.ok ⟨encode P KeyType.Download (P.download_hash point), P.download_hash point⟩ :=
    make_eq_ok P _ _ (by rw [hP.download_hash_size]; rfl) (by simp [hDsign])
  have hmakeR : make P KeyType.ReadOnly (point ++ P.readonly_hash point) =
      Except.ok ⟨encode P KeyType.ReadOnly (point ++ P.readonly_hash point),
        point ++ P.readonly_hash point⟩ :=
    make_eq_ok P _ _ (by rw [List.length_append, hP.readonly_hash_size, hpsize]; rfl)
      (by simp [hRsign])
  have hpubR : get_Public_Key P
      ⟨encode P KeyType.ReadOnly (point ++ P.readonly_hash point),
        point ++ P.readonly_hash point⟩ = Except.ok point := by
    unfold get_Public_Key
    rw [level_encode]
    simp only [hRsign, Bool.false_eq_true, if_false, if_true]
    rw [List.take_left' hpsize]
  refine ⟨⟨encode P KeyType.Download (P.download_hash point), P.download_hash point⟩,
    ⟨encode P KeyType.ReadOnly (point ++ P.readonly_hash point),
      point ++ P.readonly_hash point⟩,
    ⟨encode P KeyType.Download (P.download_hash point), P.download_hash point⟩,
    ?_, ?_, ?_, rfl, rfl, rfl⟩
  · unfold derive
    rw [hown]
    simp only [hstrength]
    rw [show KeyType.Download.strength = some 0 from by decide]
    simp only [Nat.not_lt_zero, if_false, hneD, hDsign, Bool.false_eq_true, hpub, hDR]
    exact hmakeD
  · unfold derive
    rw [hown]
    simp only [hstrength]
    rw [show KeyType.ReadOnly.strength = some 1 from by decide]
    simp only [show ¬ (2 < 1) from by decide, if_false, hneR, hRsign, Bool.false_eq_true, hpub,
      if_true]
    exact hmakeR
  · unfold derive
    rw [level_encode]
    simp only []
    rw [show KeyType.ReadOnly.strength = some 1 from by decide,
      show KeyType.Download.strength = some 0 from by decide]
    simp only [Nat.not_lt_zero, if_false, hDR, hDsign, Bool.false_eq_true, hpubR]
    exact hmakeD

/-- Witness for C5: the `ReadWrite` secret generated from the scalar 1..32. -/
theorem derive_download_direct_and_via_readonly_witness :
    ∃ d1 r d2,
      derive demoPrimitives ⟨"B123456789:;<=>?@ABCDEFGHIJKLMNOPh", demoScalar⟩
        KeyType.Download = Except.ok d1 ∧
      derive demoPrimitives ⟨"B123456789:;<=>?@ABCDEFGHIJKLMNOPh", demoScalar⟩
        KeyType.ReadOnly = Except.ok r ∧
      derive demoPrimitives r KeyType.Download = Except.ok d2 ∧
      d1.getType.1 = some KeyType.Download ∧ d1.getType.1 = d2.getType.1 ∧
      d1.get_payload.1 = d2.get_payload.1 :=
  derive_download_direct_and_via_readonly demoPrimitives demoPrimitives_lawful
    ⟨"B123456789:;<=>?@ABCDEFGHIJKLMNOPh", demoScalar⟩
    (Produced.generated TopLevel.ReadWrite (some demoScalar) _ rfl) (Or.inr rfl)

end Key

end syncfs

end librevault
